import Mathlib

/-!
# Verification of the trading bot (`src/main.py`)

Shallow embedding of the signal engine (`analyze_opportunity`) and the
portfolio loop (`trade` / `main`) of the repository's single source file.

Modelling conventions:
* Python floats are modelled as exact rationals (`ℚ`); `round(x, 6)` is
  modelled as round-half-to-even at 6 decimal places on the exact value.
* Python's `ZeroDivisionError` (float division by `0.0` raises in Python)
  is modelled with `Except PyErr`; a raised exception propagates out of the
  per-symbol loop, matching the absence of any `try/except` inside `trade`.
* The positions dict is an association list with (at most) unique keys;
  insertion of a fresh key appends, `del` filters the key out.
* `get_price` returning `None`, and the falsiness test `if not price:`,
  are modelled by an `Option ℚ` price together with an explicit `= 0` test.
-/

/- Batteries marks the `Rat` arithmetic `@[irreducible]`, which blocks
`decide` on concrete rational computations; restore reducibility so that
witnesses evaluate in the kernel. -/
attribute [local semireducible] Rat.add Rat.mul Rat.inv Rat.sub
  Rat.ofScientific

deriving instance DecidableEq for Except

set_option maxRecDepth 100000

namespace TradingBot

/-- One error kind suffices: every exception reachable in the modelled code
is a `ZeroDivisionError` from `analyze_opportunity`. -/
inductive PyErr where
  | zeroDiv
  deriving DecidableEq, Repr

/-- A kline reduced to the two fields the code reads: `float(k[4])` (close)
and `float(k[5])` (volume). -/
structure Candle where
  close : ℚ
  volume : ℚ
  deriving DecidableEq, Repr

/-- Value of `positions[symbol]["type"]`: either `"LONG"` or `"SHORT"`. -/
inductive PosType where
  | LONG
  | SHORT
  deriving DecidableEq, Repr

/-- The trade signal returned by `analyze_opportunity` (None = no signal). -/
inductive Signal where
  | BUY
  | SHORT
  deriving DecidableEq, Repr

/-- One entry of the `positions` dict: `{"type": …, "qty": …, "entry": …}`. -/
structure Position where
  ptype : PosType
  qty : ℚ
  entry : ℚ
  deriving DecidableEq, Repr

/-- Floor of a rational, computed as floored integer division. -/
def ratFloor (q : ℚ) : ℤ := Int.fdiv q.num q.den

/-- Round a rational to the nearest integer, ties to even
(the rounding Python's `round` performs on exact values). -/
def rndHalfEven (q : ℚ) : ℤ :=
  let f := ratFloor q
  let r := q - (f : ℚ)
  if r < 1/2 then f
  else if 1/2 < r then f + 1
  else if f % 2 = 0 then f else f + 1

/-- Python's `round(x, 6)`: round-half-to-even at 6 decimal places. -/
def pyRound6 (q : ℚ) : ℚ := (rndHalfEven (q * 1000000) : ℚ) / 1000000

/-- Tests whether the first list is a prefix of the second (Boolean). -/
def charPrefix : List Char → List Char → Bool
  | [], _ => true
  | _ :: _, [] => false
  | c :: cs, d :: ds => c == d && charPrefix cs ds

/-- Tests whether `needle` occurs as a contiguous substring of the second list. -/
def charInfix (needle : List Char) : List Char → Bool
  | [] => charPrefix needle []
  | d :: ds => charPrefix needle (d :: ds) || charInfix needle ds

/-- ASCII lowercasing of one character (what `str.lower` does on the ASCII
range, the range the keyword matching concerns). -/
def lowerChar (c : Char) : Char :=
  if 65 ≤ c.toNat ∧ c.toNat ≤ 90 then Char.ofNat (c.toNat + 32) else c

/-- Python's `w in h.lower()` (the keyword lists are already lowercase). -/
def wordIn (w h : String) : Bool :=
  charInfix w.toList (h.toList.map lowerChar)

/-- The `bad_words` list of `analyze_opportunity`. -/
def badWords : List String :=
  ["lawsuit", "ban", "hack", "crash", "regulation", "investigation"]

/-- The `good_words` list of `analyze_opportunity`. -/
def goodWords : List String :=
  ["surge", "rally", "gain", "partnership", "bullish", "upgrade", "adoption"]

/-- Python's `any(any(bad in h.lower() for bad in bad_words) for h in headlines)`. -/
def hasBadNews (hs : List String) : Bool :=
  hs.any (fun h => badWords.any (fun w => wordIn w h))

/-- Python's `any(any(good in h.lower() for good in good_words) for h in headlines)`. -/
def hasGoodNews (hs : List String) : Bool :=
  hs.any (fun h => goodWords.any (fun w => wordIn w h))

/-- The list `closes = [float(k[4]) for k in klines]`. -/
def closesOf (ks : List Candle) : List ℚ := ks.map (·.close)

/-- The list `volumes = [float(k[5]) for k in klines]`. -/
def volumesOf (ks : List Candle) : List ℚ := ks.map (·.volume)

/-- Python's `closes[-1]`. -/
def nowOf (cs : List ℚ) : ℚ := cs.getD (cs.length - 1) 0

/-- Python's `closes[-2]`. -/
def hourAgoOf (cs : List ℚ) : ℚ := cs.getD (cs.length - 2) 0

/-- Python's `closes[-72]`. -/
def threeDayAgoOf (cs : List ℚ) : ℚ := cs.getD (cs.length - 72) 0

/-- Python's `closes[0]`. -/
def weekAgoOf (cs : List ℚ) : ℚ := cs.getD 0 0

/-- Python's `sum(volumes[-6:])`. -/
def volRecentOf (vs : List ℚ) : ℚ := (vs.drop (vs.length - 6)).sum

/-- Python's `sum(volumes[-12:-6])`. -/
def volPrevOf (vs : List ℚ) : ℚ := ((vs.drop (vs.length - 12)).take 6).sum

/-- Python's `closes[-24:]`. -/
def last24 (cs : List ℚ) : List ℚ := cs.drop (cs.length - 24)

/-- The expression `((now - past) / past) * 100`, the percentage change the code
uses for the 1-hour, 3-day and 7-day moves (only evaluated with `past ≠ 0`). -/
def chg (now past : ℚ) : ℚ := (now - past) / past * 100

/-- Arithmetic mean of a list of rationals. -/
def listMean (xs : List ℚ) : ℚ := xs.sum / (xs.length : ℚ)

/-- Sample variance (`n − 1` divisor), the square of `statistics.stdev`. -/
def sampleVar (xs : List ℚ) : ℚ :=
  (xs.map (fun x => (x - listMean xs) * (x - listMean xs))).sum /
    ((xs.length : ℚ) - 1)

/-- The check `statistics.stdev(closes[-24:]) / now > 0.02`, stated on the
square to stay inside ℚ: for `now > 0` the real inequality
`stdev / now > 1/50` is equivalent to `var · 2500 > now²` (both sides of the
unsquared inequality are then nonnegative), and for `now < 0` the left side
is `≤ 0` so the check never fires (`now = 0` raises earlier). -/
def volatilityExceeds (xs : List ℚ) (now : ℚ) : Bool :=
  decide (0 < now ∧ now * now < sampleVar xs * 2500)

/-- Model of `analyze_opportunity(symbol)` with its collaborator inputs (the fetched
klines and headlines) made explicit.  Returns `.error` where Python raises
`ZeroDivisionError`, `.ok none` where the code returns `None` (HOLD), and
`.ok (some (signal, headlines))` where it returns `(signal, headlines)`. -/
def analyze (ks : List Candle) (hs : List String) :
    Except PyErr (Option (Signal × List String)) :=
  if ks.length < 168 then .ok none
  else if hourAgoOf (closesOf ks) = 0 ∨ threeDayAgoOf (closesOf ks) = 0 ∨
      weekAgoOf (closesOf ks) = 0 ∨ nowOf (closesOf ks) = 0 then
    .error .zeroDiv
  else if volRecentOf (volumesOf ks) ≤ volPrevOf (volumesOf ks) then .ok none
  else if volatilityExceeds (last24 (closesOf ks)) (nowOf (closesOf ks)) then
    .ok none
  else if hasBadNews hs then .ok none
  else if !hasGoodNews hs then .ok none
  else if 1 ≤ chg (nowOf (closesOf ks)) (hourAgoOf (closesOf ks)) ∧
      2 ≤ chg (nowOf (closesOf ks)) (threeDayAgoOf (closesOf ks)) ∧
      3 ≤ chg (nowOf (closesOf ks)) (weekAgoOf (closesOf ks)) then
    .ok (some (.BUY, hs))
  else if chg (nowOf (closesOf ks)) (hourAgoOf (closesOf ks)) ≤ -1 ∧
      chg (nowOf (closesOf ks)) (threeDayAgoOf (closesOf ks)) ≤ -2 ∧
      chg (nowOf (closesOf ks)) (weekAgoOf (closesOf ks)) ≤ -3 then
    .ok (some (.SHORT, hs))
  else .ok none

/-- Membership / read of the `positions` dict: first entry with the given key. -/
def lookupPos (sym : String) (ps : List (String × Position)) : Option Position :=
  (ps.find? (fun pr => pr.1 == sym)).map Prod.snd

/-- Python's `del positions[symbol]`. -/
def erasePos (sym : String) (ps : List (String × Position)) :
    List (String × Position) :=
  ps.filter (fun pr => pr.1 != sym)

/-- Side chosen at entry: `"LONG" if signal == "BUY" else "SHORT"`. -/
def sideOf : Signal → PosType
  | .BUY => .LONG
  | .SHORT => .SHORT

/-- Python's `pnl = ((price - entry) / entry * 100) if ptype == "LONG" else
((entry - price) / entry * 100)`. -/
def pnlPct : PosType → ℚ → ℚ → ℚ
  | .LONG, entry, price => (price - entry) / entry * 100
  | .SHORT, entry, price => (entry - price) / entry * 100

/-- The in-memory state of one `trade()` call: the loaded `positions` and
`balance["usdt"]`, plus the rows `save_price` has inserted this cycle. -/
structure CycleState where
  positions : List (String × Position)
  usdt : ℚ
  priceLog : List (String × ℚ)
  deriving DecidableEq, Repr

/-- The per-symbol inputs `trade()` obtains from its collaborators:
`get_price`, `get_klines` and `get_news_headlines`. -/
structure SymInput where
  sym : String
  price : Option ℚ
  klines : List Candle
  headlines : List String
  deriving DecidableEq, Repr

/-- One iteration of the `for symbol in TRADING_PAIRS:` loop of `trade()`.
`if not price: continue` skips both an absent quote and a `0.0` quote;
the sizing check `qty * price > balance` runs before the position branch,
entries append a fresh key, and a close credits the stored quantity. -/
def step (st : CycleState) (i : SymInput) : Except PyErr CycleState :=
  match i.price with
  | none => .ok st
  | some p =>
    if p = 0 then .ok st
    else
      let st1 : CycleState := { st with priceLog := st.priceLog ++ [(i.sym, p)] }
      match analyze i.klines i.headlines with
      | .error e => .error e
      | .ok none => .ok st1
      | .ok (some (sig, _hs)) =>
        let qty := pyRound6 (st1.usdt * (1/2) / p)
        if st1.usdt < qty * p then .ok st1
        else
          match lookupPos i.sym st1.positions with
          | none =>
            .ok { st1 with
                  positions := st1.positions ++ [(i.sym, ⟨sideOf sig, qty, p⟩)],
                  usdt := st1.usdt - qty * p }
          | some pos =>
            if 1 ≤ pnlPct pos.ptype pos.entry p then
              .ok { st1 with
                    positions := erasePos i.sym st1.positions,
                    usdt := st1.usdt + pos.qty * p }
            else .ok st1

/-- The whole symbol loop of `trade()`; an exception aborts the remainder
(there is no `try/except` inside the loop). -/
def runSymbols : CycleState → List SymInput → Except PyErr CycleState
  | st, [] => .ok st
  | st, i :: is => match step st i with
    | .error e => .error e
    | .ok st' => runSymbols st' is

/-- The state persisted in `positions.json` / `balance.json`. -/
structure Persist where
  positions : List (String × Position)
  usdt : ℚ
  deriving DecidableEq, Repr

/-- Constant `START_BALANCE = 100.12493175`. -/
def START_BALANCE : ℚ := 100.12493175

/-- One full `trade()` call: load state, run the symbol loop, then (only on
normal completion) persist via `save_json` and compute
`change = ((balance + invested − START_BALANCE) / START_BALANCE) * 100`.
The returned Bool records whether `change >= 3` held, i.e. whether the
"Daily goal reached … trades paused." message was sent; nothing else is
done with it — no flag is stored. `endPrices` stands for the fresh
`get_price` calls in the `invested` sum. -/
def tradeCycle (p : Persist) (inputs : List SymInput) (endPrices : String → ℚ) :
    Except PyErr (Persist × Bool) :=
  match runSymbols ⟨p.positions, p.usdt, []⟩ inputs with
  | .error e => .error e
  | .ok st =>
    let invested := (st.positions.map (fun pr => pr.2.qty * endPrices pr.1)).sum
    let change := (st.usdt + invested - START_BALANCE) / START_BALANCE * 100
    .ok (⟨st.positions, st.usdt⟩, decide (3 ≤ change))

/-- The `while True:` loop of `main()`: each cycle's exception is caught by
`except Exception`, so a failed cycle leaves the persisted state as it was
and the next cycle still runs. -/
def runCycles : Persist → List (List SymInput × (String → ℚ)) → Persist
  | p, [] => p
  | p, c :: cs => match tradeCycle p c.1 c.2 with
    | .ok (p', _) => runCycles p' cs
    | .error _ => runCycles p cs

/-- Boolean form of "the quote, when present, is nonnegative". -/
def priceNonneg (i : SymInput) : Bool :=
  match i.price with
  | none => true
  | some q => decide (0 ≤ q)

/-- Boolean form of "every open position has nonnegative quantity". -/
def posQtysOK (ps : List (String × Position)) : Bool :=
  ps.all (fun pr => decide (0 ≤ pr.2.qty))

/-! ## Concrete fixtures

A 168-candle series that passes every filter of `analyze_opportunity` with a
BUY trend (`1h = 3%`, `3d ≈ 8.4%`, `7d ≈ 14.4%`, recent volume 12 > prior 6,
sample stdev of the last 24 closes ≈ 0.61 against a close of 103), a series
whose previous close is `0`, and a favorable headline set. -/

/-- Favorable candles: index 0 close 90, indices 1–96 close 95,
indices 97–161 close 100 (volume 1), indices 162–166 close 100 (volume 2),
index 167 close 103 (volume 2). -/
def kGood : List Candle :=
  ⟨90, 1⟩ :: (List.replicate 96 ⟨95, 1⟩ ++ List.replicate 65 ⟨100, 1⟩ ++
    List.replicate 5 ⟨100, 2⟩ ++ [⟨103, 2⟩])

/-- 168 candles whose second-to-last close is `0`: the 1-hour change divides
by zero. -/
def kZero : List Candle :=
  List.replicate 166 ⟨100, 1⟩ ++ [⟨0, 1⟩, ⟨100, 1⟩]

/-- A headline set with a favorable keyword and no adverse keyword. -/
def newsGood : List String := ["Bitcoin rally continues"]

/-! ## Claim theorems -/

/-- C6: given sufficient history (168 candles), nonzero reference closes, a
passing volume filter, a passing volatility filter and passing news filters,
`analyze_opportunity` returns BUY iff the 1-hour, 3-day and 7-day changes
are all at or above 1%, 2%, 3%; SHORT iff all are at or below −1%, −2%,
−3%; and HOLD (`None`) otherwise — the comparisons are inclusive. -/
theorem analyze_directional (ks : List Candle) (hs : List String)
    (hlen : 168 ≤ ks.length)
    (h1 : hourAgoOf (closesOf ks) ≠ 0) (h2 : threeDayAgoOf (closesOf ks) ≠ 0)
    (h3 : weekAgoOf (closesOf ks) ≠ 0) (h4 : nowOf (closesOf ks) ≠ 0)
    (hvol : volPrevOf (volumesOf ks) < volRecentOf (volumesOf ks))
    (hvola : volatilityExceeds (last24 (closesOf ks)) (nowOf (closesOf ks)) = false)
    (hbad : hasBadNews hs = false) (hgood : hasGoodNews hs = true) :
    (analyze ks hs = .ok (some (.BUY, hs)) ↔
      1 ≤ chg (nowOf (closesOf ks)) (hourAgoOf (closesOf ks)) ∧
      2 ≤ chg (nowOf (closesOf ks)) (threeDayAgoOf (closesOf ks)) ∧
      3 ≤ chg (nowOf (closesOf ks)) (weekAgoOf (closesOf ks))) ∧
    (analyze ks hs = .ok (some (.SHORT, hs)) ↔
      chg (nowOf (closesOf ks)) (hourAgoOf (closesOf ks)) ≤ -1 ∧
      chg (nowOf (closesOf ks)) (threeDayAgoOf (closesOf ks)) ≤ -2 ∧
      chg (nowOf (closesOf ks)) (weekAgoOf (closesOf ks)) ≤ -3) ∧
    (¬(1 ≤ chg (nowOf (closesOf ks)) (hourAgoOf (closesOf ks)) ∧
        2 ≤ chg (nowOf (closesOf ks)) (threeDayAgoOf (closesOf ks)) ∧
        3 ≤ chg (nowOf (closesOf ks)) (weekAgoOf (closesOf ks))) →
     ¬(chg (nowOf (closesOf ks)) (hourAgoOf (closesOf ks)) ≤ -1 ∧
        chg (nowOf (closesOf ks)) (threeDayAgoOf (closesOf ks)) ≤ -2 ∧
        chg (nowOf (closesOf ks)) (weekAgoOf (closesOf ks)) ≤ -3) →
     analyze ks hs = .ok none) := by
  have hform : analyze ks hs =
      if 1 ≤ chg (nowOf (closesOf ks)) (hourAgoOf (closesOf ks)) ∧
          2 ≤ chg (nowOf (closesOf ks)) (threeDayAgoOf (closesOf ks)) ∧
          3 ≤ chg (nowOf (closesOf ks)) (weekAgoOf (closesOf ks)) then
        .ok (some (.BUY, hs))
      else if chg (nowOf (closesOf ks)) (hourAgoOf (closesOf ks)) ≤ -1 ∧
          chg (nowOf (closesOf ks)) (threeDayAgoOf (closesOf ks)) ≤ -2 ∧
          chg (nowOf (closesOf ks)) (weekAgoOf (closesOf ks)) ≤ -3 then
        .ok (some (.SHORT, hs))
      else .ok none := by
    unfold analyze
    rw [if_neg (by omega), if_neg (by simp [h1, h2, h3, h4]),
      if_neg (not_le.mpr hvol), if_neg (by simp [hvola]),
      if_neg (by simp [hbad]), if_neg (by simp [hgood])]
  rw [hform]
  by_cases c1 : 1 ≤ chg (nowOf (closesOf ks)) (hourAgoOf (closesOf ks)) ∧
      2 ≤ chg (nowOf (closesOf ks)) (threeDayAgoOf (closesOf ks)) ∧
      3 ≤ chg (nowOf (closesOf ks)) (weekAgoOf (closesOf ks)) <;>
    by_cases c2 : chg (nowOf (closesOf ks)) (hourAgoOf (closesOf ks)) ≤ -1 ∧
      chg (nowOf (closesOf ks)) (threeDayAgoOf (closesOf ks)) ≤ -2 ∧
      chg (nowOf (closesOf ks)) (weekAgoOf (closesOf ks)) ≤ -3 <;>
    (simp [c1, c2]; try linarith [c1.1, c2.1])

/-- C6 witness: the favorable fixture passes every filter and its changes
(3%, ≈8.4%, ≈14.4%) clear the 1%/2%/3% thresholds, so the decision is BUY. -/
theorem analyze_directional_witness :
    168 ≤ kGood.length ∧
    analyze kGood newsGood = .ok (some (.BUY, newsGood)) :=
  ⟨by decide,
    (analyze_directional kGood newsGood (by decide) (by decide) (by decide)
        (by decide) (by decide) (by decide) (by decide) (by decide)
        (by decide)).1.mpr ⟨by decide, by decide, by decide⟩⟩

/-- C7: whenever some headline contains an adverse keyword, the decision is
never BUY nor SHORT, whatever the candles say. -/
theorem analyze_bad_news_veto (ks : List Candle) (hs : List String)
    (hbad : hasBadNews hs = true) :
    ∀ (sig : Signal) (rest : List String),
      analyze ks hs ≠ .ok (some (sig, rest)) := by
  intro sig rest hcon
  unfold analyze at hcon
  simp only [hbad] at hcon
  repeat' split at hcon
  all_goals simp_all

/-- C7 witness: a concrete headline set containing "hack" never yields a
BUY, even on candles whose trend would otherwise qualify. -/
theorem analyze_bad_news_veto_witness :
    hasBadNews ["Exchange hack reported"] = true ∧
    analyze kGood ["Exchange hack reported"] ≠
      .ok (some (.BUY, ["Exchange hack reported"])) :=
  ⟨by decide, analyze_bad_news_veto kGood ["Exchange hack reported"]
    (by decide) .BUY ["Exchange hack reported"]⟩

/-- C4: a candle series whose previous close is `0` makes the percentage
change divide by zero: `analyze_opportunity` raises `ZeroDivisionError`
instead of returning the insufficient-data outcome (`None`/HOLD) — there is
no guard for a zero denominator. -/
theorem analyze_zero_close_raises :
    analyze kZero [] = .error .zeroDiv ∧ analyze kZero [] ≠ .ok none :=
  ⟨by decide, by decide⟩

/-- C9: a quote of exactly `0.0` takes the same path as an absent quote —
`if not price: continue` — so the symbol is skipped with no portfolio
mutation and no `save_price` row. -/
theorem zero_price_skipped (st : CycleState) (sym : String)
    (ks : List Candle) (hs : List String) :
    step st ⟨sym, some 0, ks, hs⟩ = .ok st ∧
    step st ⟨sym, none, ks, hs⟩ = .ok st := by
  constructor <;> simp [step]

/-- C8: evaluating a symbol whose position is already open, at a price that
meets no exit condition (`pnl < 1`), leaves the cash balance and the whole
positions map unchanged — in particular no duplicate position is opened. -/
theorem open_position_hold_id (st : CycleState) (sym : String)
    (pr : Option ℚ) (ks : List Candle) (hs : List String) (pos : Position)
    (st' : CycleState)
    (hlook : lookupPos sym st.positions = some pos)
    (hpnl : ∀ p : ℚ, pr = some p → pnlPct pos.ptype pos.entry p < 1)
    (hres : step st ⟨sym, pr, ks, hs⟩ = .ok st') :
    st'.usdt = st.usdt ∧ st'.positions = st.positions := by
  cases pr with
  | none =>
    simp only [step] at hres
    cases hres
    exact ⟨rfl, rfl⟩
  | some p =>
    simp only [step] at hres
    by_cases hp : p = 0
    · rw [if_pos hp] at hres
      cases hres
      exact ⟨rfl, rfl⟩
    · rw [if_neg hp] at hres
      cases hana : analyze ks hs with
      | error e => rw [hana] at hres; cases hres
      | ok o =>
        rw [hana] at hres
        cases o with
        | none => cases hres; exact ⟨rfl, rfl⟩
        | some sighs =>
          obtain ⟨sig, rest⟩ := sighs
          simp only at hres
          split at hres
          · cases hres; exact ⟨rfl, rfl⟩
          · simp only [show ({ st with priceLog := st.priceLog ++ [(sym, p)] } :
                CycleState).positions = st.positions from rfl, hlook] at hres
            rw [if_neg (not_le.mpr (hpnl p rfl))] at hres
            cases hres
            exact ⟨rfl, rfl⟩

/-- C8 witness: a concrete open LONG position re-evaluated at its entry
price (pnl 0% < 1%) leaves cash and positions unchanged. -/
theorem open_position_hold_id_witness :
    (lookupPos "BTCUSDT" [("BTCUSDT", ⟨.LONG, 1, 100⟩)] =
      some ⟨.LONG, 1, 100⟩) ∧
    ((100 : ℚ) = 100 ∧
      ([("BTCUSDT", (⟨.LONG, 1, 100⟩ : Position))] =
        [("BTCUSDT", ⟨.LONG, 1, 100⟩)])) :=
  ⟨by decide,
    open_position_hold_id ⟨[("BTCUSDT", ⟨.LONG, 1, 100⟩)], 100, []⟩ "BTCUSDT"
      (some 100) kGood newsGood ⟨.LONG, 1, 100⟩
      ⟨[("BTCUSDT", ⟨.LONG, 1, 100⟩)], 100, [("BTCUSDT", 100)]⟩
      (by decide) (by intro p hp; cases hp; decide) (by decide)⟩

/-- C10: a SHORT position closed by the profit rule (`pnl ≥ 1` with
`pnl = (entry − price)/entry · 100`) credits `qty · price` on exit, and
that credit is strictly below the `qty · entry` debited at entry: a
"profitable" SHORT strictly shrinks cash over its round trip. -/
theorem short_close_loses_cash (st : CycleState) (sym : String) (p : ℚ)
    (ks : List Candle) (hs : List String) (sig : Signal) (rest : List String)
    (pos : Position)
    (hp : p ≠ 0)
    (hana : analyze ks hs = .ok (some (sig, rest)))
    (hsz : ¬ st.usdt < pyRound6 (st.usdt * (1/2) / p) * p)
    (hlook : lookupPos sym st.positions = some pos)
    (htype : pos.ptype = .SHORT)
    (hentry : 0 < pos.entry) (hqty : 0 < pos.qty)
    (hpnl : 1 ≤ pnlPct pos.ptype pos.entry p) :
    step st ⟨sym, some p, ks, hs⟩ =
      .ok ⟨erasePos sym st.positions, st.usdt + pos.qty * p,
        st.priceLog ++ [(sym, p)]⟩ ∧
    pos.qty * p < pos.qty * pos.entry := by
  constructor
  · simp only [step, hana, hlook, if_neg hp, if_neg hsz, if_pos hpnl]
  · rw [htype] at hpnl
    simp only [pnlPct] at hpnl
    have hlt : p < pos.entry := by
      rw [div_mul_eq_mul_div, le_div_iff₀ hentry, one_mul] at hpnl
      linarith
    exact mul_lt_mul_of_pos_left hlt hqty

/-- C10 witness: entry 200, exit 103 (pnl 48.5% ≥ 1%): the close credits
103 < the 200 debited at entry. -/
theorem short_close_loses_cash_witness :
    step ⟨[("BTCUSDT", ⟨.SHORT, 1, 200⟩)], 100, []⟩
        ⟨"BTCUSDT", some 103, kGood, newsGood⟩ =
      .ok ⟨erasePos "BTCUSDT" [("BTCUSDT", ⟨.SHORT, 1, 200⟩)], 100 + 1 * 103,
        [] ++ [("BTCUSDT", 103)]⟩ ∧
    (1 : ℚ) * 103 < 1 * 200 :=
  short_close_loses_cash ⟨[("BTCUSDT", ⟨.SHORT, 1, 200⟩)], 100, []⟩ "BTCUSDT"
    103 kGood newsGood .BUY newsGood ⟨.SHORT, 1, 200⟩ (by decide) (by decide)
    (by decide) (by decide) (by decide) (by decide) (by decide) (by decide)

/-- The rounded integer is nonnegative on nonnegative input (the rounding
returns either the floor or the floor plus one). -/
lemma rndHalfEven_nonneg (q : ℚ) (h : 0 ≤ q) : 0 ≤ rndHalfEven q := by
  have hnum : 0 ≤ q.num := Rat.num_nonneg.mpr h
  have hf : 0 ≤ ratFloor q := Int.fdiv_nonneg hnum (Int.ofNat_nonneg _)
  simp only [rndHalfEven]
  split
  · exact hf
  · split
    · omega
    · split
      · exact hf
      · omega

/-- Rounding `round(x, 6)` of a nonnegative value is nonnegative. -/
lemma pyRound6_nonneg (q : ℚ) (h : 0 ≤ q) : 0 ≤ pyRound6 q := by
  unfold pyRound6
  have key : 0 ≤ rndHalfEven (q * 1000000) :=
    rndHalfEven_nonneg _ (by positivity)
  have : (0 : ℚ) ≤ (rndHalfEven (q * 1000000) : ℚ) := by exact_mod_cast key
  positivity

/-- A looked-up position is one of the stored positions, so its quantity is
covered by `posQtysOK`. -/
lemma lookupPos_qty_nonneg (sym : String) (ps : List (String × Position))
    (pos : Position) (hq : posQtysOK ps = true)
    (hlook : lookupPos sym ps = some pos) : 0 ≤ pos.qty := by
  unfold lookupPos at hlook
  obtain ⟨pr, hfind, hsnd⟩ := Option.map_eq_some'.mp hlook
  have hmem : pr ∈ ps := List.mem_of_find?_eq_some hfind
  have := (List.all_eq_true.mp hq) pr hmem
  rw [← hsnd]
  exact of_decide_eq_true this

/-- One loop iteration preserves "cash is nonnegative and all stored
quantities are nonnegative", provided the quote is nonnegative. -/
lemma step_preserves_inv (st : CycleState) (i : SymInput) (st' : CycleState)
    (hb : 0 ≤ st.usdt) (hq : posQtysOK st.positions = true)
    (hp : priceNonneg i = true)
    (hres : step st i = .ok st') :
    0 ≤ st'.usdt ∧ posQtysOK st'.positions = true := by
  obtain ⟨sym, pr, ks, hs⟩ := i
  cases pr with
  | none =>
    simp only [step] at hres
    cases hres
    exact ⟨hb, hq⟩
  | some p =>
    have hp0 : 0 ≤ p := by simpa [priceNonneg] using hp
    simp only [step] at hres
    by_cases hz : p = 0
    · rw [if_pos hz] at hres
      cases hres
      exact ⟨hb, hq⟩
    · rw [if_neg hz] at hres
      cases hana : analyze ks hs with
      | error e => rw [hana] at hres; cases hres
      | ok o =>
        rw [hana] at hres
        cases o with
        | none => cases hres; exact ⟨hb, hq⟩
        | some sighs =>
          obtain ⟨sig, rest⟩ := sighs
          simp only at hres
          split at hres
          · cases hres
            exact ⟨hb, hq⟩
          · rename_i hsz
            cases hlook : lookupPos sym st.positions with
            | none =>
              simp only [hlook] at hres
              cases hres
              refine ⟨sub_nonneg.mpr (not_lt.mp hsz), ?_⟩
              rw [posQtysOK, List.all_append]
              refine (Bool.and_eq_true _ _).mpr ⟨hq, ?_⟩
              simp only [List.all_cons, List.all_nil, Bool.and_true]
              exact decide_eq_true
                (pyRound6_nonneg _ (by positivity))
            | some pos =>
              simp only [hlook] at hres
              split at hres
              · cases hres
                have hqty : 0 ≤ pos.qty :=
                  lookupPos_qty_nonneg sym st.positions pos hq hlook
                refine ⟨by positivity, ?_⟩
                rw [posQtysOK, List.all_eq_true]
                intro pr hpr
                exact (List.all_eq_true.mp hq) pr
                  (List.mem_of_mem_filter hpr)
              · cases hres
                exact ⟨hb, hq⟩

/-- The symbol loop preserves the cash/quantity invariant. -/
lemma runSymbols_inv (inputs : List SymInput) (st st' : CycleState)
    (hb : 0 ≤ st.usdt) (hq : posQtysOK st.positions = true)
    (hp : ∀ i ∈ inputs, priceNonneg i = true)
    (hrun : runSymbols st inputs = .ok st') :
    0 ≤ st'.usdt ∧ posQtysOK st'.positions = true := by
  induction inputs generalizing st with
  | nil =>
    simp only [runSymbols] at hrun
    cases hrun
    exact ⟨hb, hq⟩
  | cons i is ih =>
    simp only [runSymbols] at hrun
    cases hstep : step st i with
    | error e => rw [hstep] at hrun; cases hrun
    | ok st1 =>
      rw [hstep] at hrun
      have h1 := step_preserves_inv st i st1 hb hq (hp i (by simp)) hstep
      exact ih st1 h1.1 h1.2 (fun j hj => hp j (by simp [hj])) hrun

/-- C3: starting from nonnegative cash (and nonnegatively sized positions),
any run of the symbol loop with nonnegative quotes keeps `cash_balance ≥ 0`
and all position quantities nonnegative; moreover an entry whose debit
exceeds the available cash is rejected outright, leaving positions and cash
untouched (only the price log row is added) — never clamped. -/
theorem cash_nonneg_inv (st : CycleState) (inputs : List SymInput)
    (st' : CycleState)
    (hb : 0 ≤ st.usdt) (hq : posQtysOK st.positions = true)
    (hp : ∀ i ∈ inputs, priceNonneg i = true)
    (hrun : runSymbols st inputs = .ok st') :
    (0 ≤ st'.usdt ∧ posQtysOK st'.positions = true) ∧
    (∀ (st₂ : CycleState) (sym : String) (p : ℚ) (ks : List Candle)
        (hs : List String) (sig : Signal) (rest : List String),
      analyze ks hs = .ok (some (sig, rest)) → p ≠ 0 →
      st₂.usdt < pyRound6 (st₂.usdt * (1/2) / p) * p →
      step st₂ ⟨sym, some p, ks, hs⟩ =
        .ok ⟨st₂.positions, st₂.usdt, st₂.priceLog ++ [(sym, p)]⟩) := by
  refine ⟨runSymbols_inv inputs st st' hb hq hp hrun, ?_⟩
  intro st₂ sym p ks hs sig rest hana hz hover
  simp only [step, hana, if_neg hz, if_pos hover]

/-- C3 witness: one accepted concrete entry (cash 100, price 103) keeps the
cash balance nonnegative. -/
theorem cash_nonneg_inv_witness :
    0 ≤ (49999989 : ℚ)/1000000 ∧
    posQtysOK [("AAA", (⟨.LONG, 485437/1000000, 103⟩ : Position))] = true :=
  (cash_nonneg_inv ⟨[], 100, []⟩ [⟨"AAA", some 103, kGood, newsGood⟩]
    ⟨[("AAA", ⟨.LONG, 485437/1000000, 103⟩)], 49999989/1000000,
      [("AAA", 103)]⟩
    (by decide) (by decide) (by decide) (by decide)).1

/-- C2 amended: the entry quantity is `round(0.5·cash/price, 6)` with
Python's round-half-to-even (not a floor), and the only rejection test is
`qty · price > cash` — there is no minimum-trade-size check. -/
theorem entry_sizing_amended (st : CycleState) (sym : String) (p : ℚ)
    (ks : List Candle) (hs : List String) (sig : Signal) (rest : List String)
    (hp : p ≠ 0)
    (hana : analyze ks hs = .ok (some (sig, rest)))
    (hflat : lookupPos sym st.positions = none) :
    (st.usdt < pyRound6 (st.usdt * (1/2) / p) * p →
      step st ⟨sym, some p, ks, hs⟩ =
        .ok ⟨st.positions, st.usdt, st.priceLog ++ [(sym, p)]⟩) ∧
    (pyRound6 (st.usdt * (1/2) / p) * p ≤ st.usdt →
      step st ⟨sym, some p, ks, hs⟩ =
        .ok ⟨st.positions ++
            [(sym, ⟨sideOf sig, pyRound6 (st.usdt * (1/2) / p), p⟩)],
          st.usdt - pyRound6 (st.usdt * (1/2) / p) * p,
          st.priceLog ++ [(sym, p)]⟩) := by
  constructor
  · intro hover
    simp only [step, hana, if_neg hp, if_pos hover]
  · intro hfit
    simp only [step, hana, hflat, if_neg hp, if_neg (not_lt.mpr hfit)]

/-- C2 witness: cash 100, price 103: `round(50/103, 6) = 0.485437`, the
notional `0.485437·103 = 50.000011` fits, and the entry is booked with
exactly that quantity and debit. -/
theorem entry_sizing_amended_witness :
    pyRound6 ((100 : ℚ) * (1/2) / 103) * 103 ≤ 100 ∧
    step ⟨[], 100, []⟩ ⟨"BTCUSDT", some 103, kGood, newsGood⟩ =
      .ok ⟨[] ++
          [("BTCUSDT", ⟨sideOf .BUY, pyRound6 ((100 : ℚ) * (1/2) / 103), 103⟩)],
        100 - pyRound6 ((100 : ℚ) * (1/2) / 103) * 103,
        [] ++ [("BTCUSDT", 103)]⟩ :=
  ⟨by decide,
    (entry_sizing_amended ⟨[], 100, []⟩ "BTCUSDT" 103 kGood newsGood .BUY
      newsGood (by decide) (by decide) (by decide)).2 (by decide)⟩

/-- C2 counterexample: (a) a computed notional of `0.20 < 0.25` is accepted
— no minimum-trade-size rejection exists; (b) with cash 100 and price 3 the
booked quantity is `16.666667`, the round-half-even value, strictly above
the rounded-down value `16.666666` the claim prescribes. -/
theorem entry_sizing_cex :
    (step ⟨[], 2/5, []⟩ ⟨"AAA", some 1, kGood, newsGood⟩ =
        .ok ⟨[("AAA", ⟨.LONG, 1/5, 1⟩)], 1/5, [("AAA", 1)]⟩ ∧
      (1/5 : ℚ) * 1 < 1/4) ∧
    (step ⟨[], 100, []⟩ ⟨"BBB", some 3, kGood, newsGood⟩ =
        .ok ⟨[("BBB", ⟨.LONG, 16666667/1000000, 3⟩)], 49999999/1000000,
          [("BBB", 3)]⟩ ∧
      (ratFloor (100 * (1/2) / 3 * 1000000) : ℚ) / 1000000 =
        16666666/1000000 ∧
      (16666667 : ℚ)/1000000 ≠ 16666666/1000000) := by
  exact ⟨⟨by decide, by decide⟩, by decide, by decide, by decide⟩

/-- Sequencing of the symbol loop: a successful prefix followed by a failing
suffix makes the whole loop fail with that error. -/
lemma runSymbols_seq (xs ys : List SymInput) (st st₁ : CycleState) (e : PyErr)
    (h1 : runSymbols st xs = .ok st₁) (h2 : runSymbols st₁ ys = .error e) :
    runSymbols st (xs ++ ys) = .error e := by
  induction xs generalizing st with
  | nil =>
    simp only [runSymbols] at h1
    cases h1
    simpa using h2
  | cons i is ih =>
    simp only [runSymbols, List.cons_append] at h1 ⊢
    cases hstep : step st i with
    | error e' => simp [hstep] at h1
    | ok stm =>
      simp only [hstep] at h1 ⊢
      exact ih stm h1

/-- C5 amended: an exception raised while evaluating one symbol propagates —
the remaining symbols of the cycle are not evaluated and none of the cycle's
in-memory mutations is persisted (the next cycle starts from the pre-cycle
state); the outer `while True` loop catches it, so later cycles still run. -/
theorem symbol_exception_aborts_cycle :
    (∀ (p : Persist) (c : List SymInput × (String → ℚ))
        (cs : List (List SymInput × (String → ℚ))) (e : PyErr),
      tradeCycle p c.1 c.2 = .error e →
      runCycles p (c :: cs) = runCycles p cs) ∧
    (∀ (st st₁ : CycleState) (xs ys : List SymInput) (e : PyErr),
      runSymbols st xs = .ok st₁ → runSymbols st₁ ys = .error e →
      runSymbols st (xs ++ ys) = .error e) := by
  constructor
  · intro p c cs e h
    simp only [runCycles, h]
  · intro st st₁ xs ys e h1 h2
    exact runSymbols_seq xs ys st st₁ e h1 h2

/-- C5 witness: a concrete cycle whose only symbol divides by zero leaves
the persisted state for the next cycle exactly as it was. -/
theorem symbol_exception_aborts_cycle_witness :
    tradeCycle ⟨[], 100⟩ [⟨"BBB", some 5, kZero, []⟩] (fun _ => 0) =
      .error .zeroDiv ∧
    runCycles ⟨[], 100⟩
        [([⟨"BBB", some 5, kZero, []⟩], fun _ => 0), ([], fun _ => 0)] =
      runCycles ⟨[], 100⟩ [([], fun _ => 0)] :=
  ⟨by decide,
    symbol_exception_aborts_cycle.1 ⟨[], 100⟩
      ([⟨"BBB", some 5, kZero, []⟩], fun _ => 0) [([], fun _ => 0)] .zeroDiv
      (by decide)⟩

/-- C5 counterexample: symbol AAA's entry mutates the in-memory state, then
symbol BBB raises; the claim would have AAA's mutation persisted and the
loop continue, but the cycle errors out and the persisted state is exactly
the pre-cycle one — AAA's position and cash debit are lost. -/
theorem symbol_exception_cex :
    runSymbols ⟨[], 100, []⟩ [⟨"AAA", some 103, kGood, newsGood⟩] =
      .ok ⟨[("AAA", ⟨.LONG, 485437/1000000, 103⟩)], 49999989/1000000,
        [("AAA", 103)]⟩ ∧
    runSymbols ⟨[], 100, []⟩
        [⟨"AAA", some 103, kGood, newsGood⟩, ⟨"BBB", some 5, kZero, []⟩] =
      .error .zeroDiv ∧
    runCycles ⟨[], 100⟩
        [([⟨"AAA", some 103, kGood, newsGood⟩, ⟨"BBB", some 5, kZero, []⟩],
          fun _ => 103)] =
      ⟨[], 100⟩ := by
  exact ⟨by decide, by decide, by decide⟩

/-- C1: the daily-goal check only sends a notification. After a cycle in
which the 3% target is reached (the returned flag is `true`, i.e. the
"trades paused" message went out), the very next cycle still opens a new
position on a favorable BUY signal: no `trading_paused` latch exists. -/
theorem daily_goal_does_not_pause :
    tradeCycle ⟨[], 110⟩ [] (fun _ => 0) = .ok (⟨[], 110⟩, true) ∧
    runCycles ⟨[], 110⟩
        [([], fun _ => 0),
         ([⟨"BTCUSDT", some 103, kGood, newsGood⟩], fun _ => 103)] =
      ⟨[("BTCUSDT", ⟨.LONG, 533981/1000000, 103⟩)], 54999957/1000000⟩ := by
  exact ⟨by decide, by decide⟩

end TradingBot
